import Mathlib

/-
Verification of the Draiver Context Generator core pipeline
(src/extraction.py, src/audit.py, src/utils.py) against its
natural-language specification.

The Python code is shallowly embedded: pure computations become Lean
functions, the process-wide retry counter becomes an explicit Nat that is
threaded through the retry loop, the root logger handler list becomes an
explicit list of handler identities, exceptions become Except / Option
values, and the file system writes of the image extractor become the list
of file names written.  Python floats (file sizes) are modelled with exact
rationals; no claim depends on float rounding behaviour.
-/

namespace Draiver

/-! ## String containment, modelling the Python operator testing whether
one string occurs inside another (used by gemini_retry to classify
quota errors). -/

/-- Is the first char list a prefix of the second? -/
def charsPre : List Char → List Char → Bool
  | [], _ => true
  | _ :: _, [] => false
  | a :: as, b :: bs => a == b && charsPre as bs

/-- Does the first char list occur contiguously inside the second? -/
def charsSub (pat : List Char) : List Char → Bool
  | [] => charsPre pat []
  | c :: rest => charsPre pat (c :: rest) || charsSub pat rest

/-- Python substring test, on strings. -/
def strContainsSub (s pat : String) : Bool :=
  charsSub pat.toList s.toList

/-- Python str.startswith, on strings. -/
def strStartsWith (s pat : String) : Bool :=
  charsPre pat.toList s.toList

/-! ## src/utils.py : gemini_retry

The decorator wraps a fallible operation in a while loop guarded by a
process-wide attempt counter.  We model the counter as an explicit Nat
passed in and returned, the wrapped operation as a function from the
invocation index to an Except value (error values carry the message
string that Python would obtain with str(e)), and time.sleep as a no-op
(the suggested-delay extraction only feeds the sleep, which has no
observable effect in this model).  The trace records the outcome, the
final counter, and how many times the operation was invoked. -/

/-- Classification of an exception message as a quota error, per the
source test on the strings 429 and RESOURCE_EXHAUSTED. -/
def isQuotaMsg (msg : String) : Bool :=
  strContainsSub msg "429" || strContainsSub msg "RESOURCE_EXHAUSTED"

/-- Outcome of one call of a gemini_retry-wrapped function: a returned
value, a propagated exception, or the silent None returned when the
while loop never runs its body to a return/raise. -/
inductive RetryOutcome (α : Type) where
  | ok (a : α)
  | err (msg : String)
  | nullRes
  deriving DecidableEq, Repr

/-- Observable trace of one wrapped call: outcome, final value of the
shared attempt counter, and number of invocations of the operation. -/
structure RetryTrace (α : Type) where
  outcome : RetryOutcome α
  finalAttempts : Nat
  calls : Nat
  deriving DecidableEq, Repr

/-- The while loop of the wrapper in gemini_retry.  callIdx numbers the
invocations of the wrapped operation, attempts is the shared counter
and calls counts invocations made so far. -/
def geminiRetryLoop (maxAttempts : Nat) (op : Nat → Except String α)
    (callIdx attempts calls : Nat) : RetryTrace α :=
  if _h : attempts < maxAttempts then
    match op callIdx with
    | .ok a =>
      -- After a success, reset the global counter and return.
      ⟨.ok a, 0, calls + 1⟩
    | .error e =>
      if isQuotaMsg e then
        if attempts + 1 ≥ maxAttempts then
          -- Max retry attempts reached: reset the counter and re-raise.
          ⟨.err e, 0, calls + 1⟩
        else
          -- Sleep for the suggested delay (no observable effect), retry.
          geminiRetryLoop maxAttempts op (callIdx + 1) (attempts + 1) (calls + 1)
      else
        -- Not a quota error: raise normally, counter untouched.
        ⟨.err e, attempts, calls + 1⟩
  else
    -- Loop guard false at entry: fall through and return None.
    ⟨.nullRes, attempts, calls⟩
termination_by maxAttempts - attempts
decreasing_by omega

/-- One call of a function wrapped by gemini_retry, starting from the
given shared counter value. -/
def gemini_retry (maxAttempts : Nat) (op : Nat → Except String α)
    (attempts0 : Nat) : RetryTrace α :=
  geminiRetryLoop maxAttempts op 0 attempts0 0

/-! ## src/extraction.py : warning capture

A log record as seen by a logging handler: logger name, level name,
emitting thread name, and rendered message.  The records modelled here
are the ones the logging framework delivers to the handler. -/

structure LogRecord where
  name : String
  levelname : String
  threadName : String
  message : String
  deriving DecidableEq, Repr

/-- The per-document warning capture handler, with the constructor
arguments relevant to filtering (the target list is threaded separately
as state). -/
structure WarningCapture where
  sourceFile : String
  threadName : String
  deriving DecidableEq, Repr

/-- The tuple of Docling logger prefixes the handler captures. -/
def doclingNamespaces : List String := ["docling."]

/-- The filter applied by the emit method of the warning capture: the
record must come from the thread that created the handler and from a
Docling logger. -/
def captureAccepts (cap : WarningCapture) (r : LogRecord) : Bool :=
  r.threadName == cap.threadName
    && doclingNamespaces.any (fun p => strStartsWith r.name p)

/-- Message formatting of the emit method. -/
def formatCaptured (r : LogRecord) : String :=
  "[" ++ r.levelname ++ "] " ++ r.name ++ ": " ++ r.message

/-- The emit method: appends the formatted message to the target list
when the filter accepts the record. -/
def captureEmit (cap : WarningCapture) (target : List String)
    (r : LogRecord) : List String :=
  if captureAccepts cap r then target ++ [formatCaptured r] else target

/-- Delivery of a sequence of records to the handler, in emission
order. -/
def captureEmitAll (cap : WarningCapture) (target : List String)
    (records : List LogRecord) : List String :=
  records.foldl (captureEmit cap) target

/-! ## src/extraction.py : image extraction -/

/-- A decodable PIL image: an opaque content identifier plus whether
the save call on it succeeds (an exception while saving one image is
caught and skips only that image). -/
structure PilImage where
  content : Nat
  saveOk : Bool
  deriving DecidableEq, Repr

/-- The image field of a picture item: pil_image may be absent. -/
structure ImageRef where
  pil_image : Option PilImage
  deriving DecidableEq, Repr

/-- One entry of the document picture list: the image field itself may
be absent. -/
structure PictureItem where
  image : Option ImageRef
  deriving DecidableEq, Repr

/-- Python string formatting of an index with format spec 03d. -/
def zeroPad3 (n : Nat) : String :=
  let s := toString n
  if s.length < 3 then String.mk (List.replicate (3 - s.length) '0') ++ s else s

/-- File name given to the picture at position idx of the list. -/
def imgFileName (docStem : String) (idx : Nat) : String :=
  docStem ++ "_img_" ++ zeroPad3 idx ++ ".png"

/-- The loop of _extract_images over the enumerated picture list,
returning the saved-image count and the names of the files written, in
write order.  A picture whose image or pil_image is None is skipped by
continue; a failing save is caught and skipped; both keep their index. -/
def extractImagesGo (docStem : String) : Nat → List PictureItem → Nat × List String
  | _, [] => (0, [])
  | idx, p :: ps =>
    let rest := extractImagesGo docStem (idx + 1) ps
    match p.image with
    | none => rest
    | some ref =>
      match ref.pil_image with
      | none => rest
      | some img =>
        if img.saveOk then (rest.1 + 1, imgFileName docStem idx :: rest.2)
        else rest

/-- The function _extract_images: pictures is None when the document
object lacks the attribute; an empty or absent picture list returns 0
immediately (the mkdir side effect is not observable in the results). -/
def extract_images (docStem : String) (pictures : Option (List PictureItem)) :
    Nat × List String :=
  match pictures with
  | none => (0, [])
  | some pics =>
    if pics.isEmpty then (0, [])
    else extractImagesGo docStem 0 pics

/-! ## src/extraction.py : extract_context and extract_all

The external Docling converter is opaque: a job carries the converter
outcome for its path (a converted document or the message of the raised
exception) together with the log records the framework delivers to the
capture handler during the conversion.  File sizes come from the
ingestion step and are part of the job data. -/

/-- The converted document object, reduced to the capabilities the code
uses: markdown export, the optional pages collection, and the optional
picture list. -/
structure ConvertedDoc where
  markdown : String
  pages : Option (List Unit)
  pictures : Option (List PictureItem)
  deriving Repr

/-- The helper _get_page_count: length of the pages collection when it
is present and non-empty, else 0. -/
def get_page_count (doc : ConvertedDoc) : Nat :=
  match doc.pages with
  | some ps => if ps.isEmpty then 0 else ps.length
  | none => 0

/-- One document job: path name and stem, size in MB from stat, the
opaque converter outcome for this path, and the log records delivered
to the capture handler while converting it. -/
structure Job where
  name : String
  stem : String
  sizeMB : ℚ
  convert : Except String ConvertedDoc
  records : List LogRecord
  deriving Repr

/-- The context dictionary returned by extract_context on success. -/
structure ExtractionResult where
  title : String
  source_file : String
  markdown_content : String
  page_count : Nat
  images_extracted : Nat
  warnings : List String
  deriving Repr

/-- Python str.title restricted to ASCII letters: the first letter of
each letter run is uppercased, the rest lowercased. -/
def pyTitleGo : Bool → List Char → List Char
  | _, [] => []
  | prevAlpha, c :: cs =>
    let c2 := if c.isAlpha then (if prevAlpha then c.toLower else c.toUpper) else c
    c2 :: pyTitleGo c.isAlpha cs

/-- The title field computation of extract_context: underscores and
hyphens become spaces, then str.title. -/
def makeTitle (stem : String) : String :=
  let replaced := stem.map (fun c => if c = '_' then ' ' else if c = '-' then ' ' else c)
  String.mk (pyTitleGo false replaced.toList)

/-- Logger.addHandler on the root logger: appends the handler unless it
is already installed.  Handlers are modelled by identity. -/
def addHandler (handlers : List Nat) (h : Nat) : List Nat :=
  if h ∈ handlers then handlers else handlers ++ [h]

/-- Logger.removeHandler on the root logger: removes the first
occurrence of the handler when present. -/
def removeHandler (handlers : List Nat) (h : Nat) : List Nat :=
  if h ∈ handlers then handlers.erase h else handlers

/-- The function extract_context for one job.  It installs a fresh
warning-capture handler (identity hid) on the root logger, converts the
document inside a try block whose finally clause removes the handler on
every exit path, and on success builds the context dictionary; every
exception from the conversion body yields None.  Returns the optional
result together with the root handler list after the call. -/
def extract_context (job : Job) (threadName : String) (useImagesDir : Bool)
    (rootHandlers : List Nat) (hid : Nat) :
    Option ExtractionResult × List Nat :=
  let cap : WarningCapture := ⟨job.name, threadName⟩
  let handlers1 := addHandler rootHandlers hid
  let res : Option ExtractionResult :=
    match job.convert with
    | .error _ => none
    | .ok doc =>
      let warningsCaptured := captureEmitAll cap [] job.records
      let imagesExtracted :=
        if useImagesDir then (extract_images job.stem doc.pictures).1 else 0
      some
        { title := makeTitle job.stem
          source_file := job.name
          markdown_content := doc.markdown
          page_count := get_page_count doc
          images_extracted := imagesExtracted
          warnings := warningsCaptured }
  let handlers2 := removeHandler handlers1 hid
  (res, handlers2)

/-! ## src/audit.py : AuditLog -/

/-- Python round to two decimal places, on exact rationals. -/
def round2 (q : ℚ) : ℚ := (round (q * 100) : ℤ) / 100

/-- One audit entry as built by AuditLog.add_entry. -/
structure AuditEntry where
  source_file : String
  status : String
  file_size_mb : ℚ
  page_count : Nat
  images_extracted : Nat
  warnings : List String
  error : Option String
  deriving DecidableEq, Repr

/-- AuditLog.add_entry: appends one entry; a None warnings argument
becomes the empty list. -/
def add_entry (entries : List AuditEntry) (source_file : String)
    (status : String) (page_count : Nat) (images_extracted : Nat)
    (warnings : Option (List String)) (error : Option String)
    (file_size_mb : ℚ) : List AuditEntry :=
  entries ++ [{ source_file := source_file
                status := status
                file_size_mb := round2 file_size_mb
                page_count := page_count
                images_extracted := images_extracted
                warnings := warnings.getD []
                error := error }]

/-- The summary block computed by AuditLog.write_report. -/
structure Summary where
  total_documents : Nat
  successful : Nat
  partialCount : Nat
  failed : Nat
  total_images_extracted : Nat
  total_warnings : Nat
  deriving DecidableEq, Repr

/-- The summary computation inside write_report: status buckets are the
filtered entry lists, totals are sums over all entries. -/
def computeSummary (entries : List AuditEntry) : Summary :=
  let successes := entries.filter (fun e => e.status == "success")
  let partials := entries.filter (fun e => e.status == "partial")
  let failures := entries.filter (fun e => e.status == "failed")
  { total_documents := entries.length
    successful := successes.length
    partialCount := partials.length
    failed := failures.length
    total_images_extracted := (entries.map (fun e => e.images_extracted)).sum
    total_warnings := (entries.map (fun e => e.warnings.length)).sum }

/-! ## src/extraction.py : extract_all -/

/-- What the worker closure returns for one path: the context dict on
success, otherwise the file name (the isinstance check downstream
partitions on this). -/
inductive WorkerRes where
  | okRes (r : ExtractionResult)
  | failedName (s : String)
  deriving Repr

/-- The worker closure of extract_all for a single job: computes the
file size, runs extract_context, and records the audit entry with
status partial when warnings were captured, success otherwise, or a
failed entry with a generic error when conversion returned None. -/
def workerRun (useImagesDir : Bool) (threadName : String)
    (audit : List AuditEntry) (job : Job) : WorkerRes × List AuditEntry :=
  let file_size_mb := job.sizeMB
  match (extract_context job threadName useImagesDir [] 0).1 with
  | some r =>
    let status := if r.warnings.isEmpty then "success" else "partial"
    (.okRes r,
      add_entry audit r.source_file status r.page_count r.images_extracted
        (some r.warnings) none file_size_mb)
  | none =>
    (.failedName job.name,
      add_entry audit job.name "failed" 0 0 none
        (some "Docling conversion failed (see console logs)") file_size_mb)

/-- The executor map of extract_all: results come back in input order;
each worker runs on a pool thread.  The audit log is threaded through
(its appends are serialized here; the claims do not depend on append
interleaving, only on the per-entry contents). -/
def extractAllGo (useImagesDir : Bool) :
    Nat → List AuditEntry → List Job → List WorkerRes × List AuditEntry
  | _, audit, [] => ([], audit)
  | i, audit, job :: jobs =>
    let step := workerRun useImagesDir ("worker_" ++ toString i) audit job
    let rest := extractAllGo useImagesDir (i + 1) step.2 jobs
    (step.1 :: rest.1, rest.2)

/-- The partition loop after the executor map: dict results go to
successful, strings to failed. -/
def partitionResults : List WorkerRes → List ExtractionResult × List String
  | [] => ([], [])
  | .okRes r :: rest =>
    let p := partitionResults rest
    (r :: p.1, p.2)
  | .failedName s :: rest =>
    let p := partitionResults rest
    (p.1, s :: p.2)

/-- The function extract_all: maps the worker over all paths, then
partitions the results, returning the pair (successful, failed)
together with the audit log it populated. -/
def extract_all (jobs : List Job) (audit : List AuditEntry)
    (useImagesDir : Bool) : (List ExtractionResult × List String) × List AuditEntry :=
  let ran := extractAllGo useImagesDir 0 audit jobs
  (partitionResults ran.1, ran.2)

/-! ## src/audit.py : write_report and its JSON round trip

The report written by write_report is modelled as a JSON tree; the
Python json.dumps / json.loads pair is the standard library's inverse
serialization and is modelled as the identity on this tree.  Integers
and floats serialize differently in Python, hence two number
constructors. -/

inductive Json where
  | jnull
  | jstr (s : String)
  | jint (n : Int)
  | jnum (q : ℚ)
  | jarr (xs : List Json)
  | jobj (fields : List (String × Json))

/-- JSON encoding of one audit entry, with the key order of add_entry. -/
def entryToJson (e : AuditEntry) : Json :=
  .jobj [("source_file", .jstr e.source_file),
         ("status", .jstr e.status),
         ("file_size_mb", .jnum e.file_size_mb),
         ("page_count", .jint e.page_count),
         ("images_extracted", .jint e.images_extracted),
         ("warnings", .jarr (e.warnings.map .jstr)),
         ("error", match e.error with | none => .jnull | some s => .jstr s)]

/-- JSON encoding of the summary block. -/
def summaryToJson (s : Summary) : Json :=
  .jobj [("total_documents", .jint s.total_documents),
         ("successful", .jint s.successful),
         ("partial", .jint s.partialCount),
         ("failed", .jint s.failed),
         ("total_images_extracted", .jint s.total_images_extracted),
         ("total_warnings", .jint s.total_warnings)]

/-- AuditLog.write_report: the report object serialized to the file
audit_report.json. -/
def write_report (runTimestamp : String) (entries : List AuditEntry) : Json :=
  .jobj [("run_timestamp", .jstr runTimestamp),
         ("summary", summaryToJson (computeSummary entries)),
         ("documents", .jarr (entries.map entryToJson))]

/-- Field lookup in a parsed JSON object. -/
def jlookup : List (String × Json) → String → Option Json
  | [], _ => none
  | (k, v) :: rest, key => if k == key then some v else jlookup rest key

/-- Reading a non-negative integer back from parsed JSON. -/
def jGetNat : Json → Option Nat
  | .jint n => if 0 ≤ n then some n.toNat else none
  | _ => none

/-- Reloading the written report: extracts the six summary counts from
the parsed JSON tree. -/
def readSummary (j : Json) : Option Summary :=
  match j with
  | .jobj fields =>
    match jlookup fields "summary" with
    | some (.jobj sf) =>
      match jGetNat ((jlookup sf "total_documents").getD .jnull),
            jGetNat ((jlookup sf "successful").getD .jnull),
            jGetNat ((jlookup sf "partial").getD .jnull),
            jGetNat ((jlookup sf "failed").getD .jnull),
            jGetNat ((jlookup sf "total_images_extracted").getD .jnull),
            jGetNat ((jlookup sf "total_warnings").getD .jnull) with
      | some td, some su, some pa, some fa, some ti, some tw =>
        some ⟨td, su, pa, fa, ti, tw⟩
      | _, _, _, _, _, _ => none
    | _ => none
  | _ => none

/-- The audit entry invariant stated by the specification. -/
def auditInv (e : AuditEntry) : Prop :=
  (e.status = "failed" → e.error ≠ none ∧ e.page_count = 0 ∧ e.images_extracted = 0)
  ∧ (e.status = "partial" → e.warnings ≠ [])
  ∧ (e.status = "success" → e.warnings = [])

/-- A picture entry that carries decodable image data whose save call
succeeds, i.e. one that contributes a written file. -/
def picWritable (p : PictureItem) : Bool :=
  match p.image with
  | none => false
  | some ref =>
    match ref.pil_image with
    | none => false
    | some img => img.saveOk

/-! ## Helper lemmas -/

theorem partitionResults_length (rs : List WorkerRes) :
    (partitionResults rs).1.length + (partitionResults rs).2.length = rs.length := by
  induction rs with
  | nil => simp [partitionResults]
  | cons r rest ih =>
    cases r <;> simp [partitionResults] <;> omega

theorem extractAllGo_length (u : Bool) (i : Nat) (audit : List AuditEntry)
    (jobs : List Job) :
    (extractAllGo u i audit jobs).1.length = jobs.length := by
  induction jobs generalizing i audit with
  | nil => simp [extractAllGo]
  | cons j js ih => simp [extractAllGo, ih]

theorem workerRun_audit_mem (u : Bool) (tn : String) (audit : List AuditEntry)
    (job : Job) (e : AuditEntry) (he : e ∈ (workerRun u tn audit job).2) :
    e ∈ audit ∨ auditInv e := by
  unfold workerRun at he
  cases hc : (extract_context job tn u [] 0).1 with
  | some r =>
    rw [hc] at he
    simp only [add_entry, List.mem_append, List.mem_singleton] at he
    rcases he with he | he
    · exact .inl he
    · right
      subst he
      by_cases hw : r.warnings.isEmpty
      · simp [auditInv, hw]
        exact List.isEmpty_iff.mp hw
      · simp [auditInv, hw]
        exact fun h => hw (by simp [h])
  | none =>
    rw [hc] at he
    simp only [add_entry, List.mem_append, List.mem_singleton] at he
    rcases he with he | he
    · exact .inl he
    · right
      subst he
      simp [auditInv]

theorem extractAllGo_audit_mem (u : Bool) (i : Nat) (audit : List AuditEntry)
    (jobs : List Job) (e : AuditEntry)
    (he : e ∈ (extractAllGo u i audit jobs).2) :
    e ∈ audit ∨ auditInv e := by
  induction jobs generalizing i audit with
  | nil =>
    simp only [extractAllGo] at he
    exact .inl he
  | cons j js ih =>
    simp only [extractAllGo] at he
    rcases ih (i + 1) (workerRun u ("worker_" ++ toString i) audit j).2 he with h | h
    · exact workerRun_audit_mem u ("worker_" ++ toString i) audit j e h
    · exact .inr h

/-! ## Claim theorems -/

/-- C1: for every batch of N input paths, extract_all returns a pair
(successes, failed_names) with len(successes) + len(failed_names) = N;
conversion failures are caught inside extract_context, so every
supplied path contributes exactly one element to one of the two
lists. -/
theorem extract_all_total_partition (jobs : List Job) (audit : List AuditEntry)
    (u : Bool) :
    ((extract_all jobs audit u).1.1).length + ((extract_all jobs audit u).1.2).length
      = jobs.length := by
  unfold extract_all
  rw [partitionResults_length]
  exact extractAllGo_length u 0 audit jobs

/-- C2: every audit entry produced by extract_all satisfies the status
invariant: failed entries carry an error and zero pages and images,
partial entries have a non-empty warning list, success entries an
empty one. -/
theorem extract_all_audit_invariant (u : Bool) (jobs : List Job) (e : AuditEntry)
    (he : e ∈ (extract_all jobs [] u).2) : auditInv e := by
  have h := extractAllGo_audit_mem u 0 [] jobs e (by simpa [extract_all] using he)
  simpa using h

/-- Witness for C2: the failed entry recorded for a job whose
conversion raises satisfies the invariant. -/
theorem extract_all_audit_invariant_witness :
    auditInv { source_file := "a.pdf", status := "failed", file_size_mb := round2 0,
               page_count := 0, images_extracted := 0, warnings := [],
               error := some "Docling conversion failed (see console logs)" } :=
  extract_all_audit_invariant false
    [{ name := "a.pdf", stem := "a", sizeMB := 0, convert := .error "boom", records := [] }]
    _ (by simp [extract_all, extractAllGo, workerRun, extract_context, add_entry])

/-- C3: with the shared counter at 0, an operation that fails with a
rate-limit signal twice then succeeds is retried and its success result
returned with the counter back at 0; an operation that always fails
with the rate-limit signal has its failure propagated after
max_attempts tries, with the counter reset to 0. -/
theorem gemini_retry_quota_behaviour {α : Type} (op op2 : Nat → Except String α)
    (a : α) (e0 e1 : String) (es : Nat → String)
    (h0 : op 0 = .error e0) (hq0 : isQuotaMsg e0 = true)
    (h1 : op 1 = .error e1) (hq1 : isQuotaMsg e1 = true)
    (h2 : op 2 = .ok a)
    (hf : ∀ i, op2 i = .error (es i)) (hqf : ∀ i, isQuotaMsg (es i) = true) :
    gemini_retry 5 op 0 = ⟨.ok a, 0, 3⟩ ∧
    gemini_retry 5 op2 0 = ⟨.err (es 4), 0, 5⟩ := by
  constructor
  · rw [gemini_retry]
    rw [geminiRetryLoop]; simp only [h0, hq0]; norm_num
    rw [geminiRetryLoop]; simp only [h1, hq1]; norm_num
    rw [geminiRetryLoop]; simp only [h2]; norm_num
  · rw [gemini_retry]
    rw [geminiRetryLoop]; simp only [hf 0, hqf 0]; norm_num
    rw [geminiRetryLoop]; simp only [hf 1, hqf 1]; norm_num
    rw [geminiRetryLoop]; simp only [hf 2, hqf 2]; norm_num
    rw [geminiRetryLoop]; simp only [hf 3, hqf 3]; norm_num
    rw [geminiRetryLoop]; simp only [hf 4, hqf 4]; norm_num

/-- Witness for C3, at concrete operations. -/
theorem gemini_retry_quota_behaviour_witness :
    gemini_retry 5 (fun i => if i < 2 then .error "429" else .ok 1) 0
      = ⟨.ok 1, 0, 3⟩ ∧
    gemini_retry 5 (fun _ => (.error "RESOURCE_EXHAUSTED" : Except String Nat)) 0
      = ⟨.err "RESOURCE_EXHAUSTED", 0, 5⟩ :=
  gemini_retry_quota_behaviour (fun i => if i < 2 then .error "429" else .ok 1)
    (fun _ => .error "RESOURCE_EXHAUSTED") 1 "429" "429"
    (fun _ => "RESOURCE_EXHAUSTED")
    rfl rfl rfl rfl rfl (fun _ => rfl) (fun _ => rfl)

/-- C8: a failure not classified as rate-limiting (message containing
neither 429 nor RESOURCE_EXHAUSTED) is propagated immediately and
unchanged, after a single invocation, with the shared counter
untouched. -/
theorem gemini_retry_non_quota_propagates {α : Type} (maxA : Nat)
    (op : Nat → Except String α) (attempts : Nat) (e : String)
    (hlt : attempts < maxA) (h0 : op 0 = .error e) (hq : isQuotaMsg e = false) :
    gemini_retry maxA op attempts = ⟨.err e, attempts, 1⟩ := by
  rw [gemini_retry, geminiRetryLoop]
  simp [hlt, h0, hq]

/-- Witness for C8. -/
theorem gemini_retry_non_quota_propagates_witness :
    gemini_retry 5 (fun _ => (.error "boom" : Except String Nat)) 0
      = ⟨.err "boom", 0, 1⟩ :=
  gemini_retry_non_quota_propagates 5 (fun _ => .error "boom") 0 "boom"
    (by decide) rfl (by decide)

/-- C10: when the shared counter already equals or exceeds
max_attempts at entry, the loop body never runs: the operation is never
invoked and the wrapper returns None with the counter unchanged. -/
theorem gemini_retry_counter_saturated {α : Type} (maxA : Nat)
    (op : Nat → Except String α) (attempts : Nat) (hge : maxA ≤ attempts) :
    gemini_retry maxA op attempts = ⟨.nullRes, attempts, 0⟩ := by
  rw [gemini_retry, geminiRetryLoop]
  simp [Nat.not_lt.mpr hge]

/-- Witness for C10, with max_attempts = 0. -/
theorem gemini_retry_counter_saturated_witness :
    gemini_retry 0 (fun _ => (.ok 7 : Except String Nat)) 0 = ⟨.nullRes, 0, 0⟩ :=
  gemini_retry_counter_saturated 0 (fun _ => .ok 7) 0 (by decide)

theorem captureEmitAll_eq (cap : WarningCapture) (t : List String)
    (rs : List LogRecord) :
    captureEmitAll cap t rs
      = t ++ (rs.filter (captureAccepts cap)).map formatCaptured := by
  induction rs generalizing t with
  | nil => simp [captureEmitAll]
  | cons r rest ih =>
    have hstep : captureEmitAll cap t (r :: rest)
        = captureEmitAll cap (captureEmit cap t r) rest := rfl
    rw [hstep, ih]
    by_cases h : captureAccepts cap r <;>
      simp [captureEmit, h, List.filter_cons]

/-- C4: the capture handler appends exactly the records from the
docling logger namespace emitted on the installing thread, formatted as
level, source and message, in emission order; a record emitted on a
different thread is never appended, so concurrent jobs on distinct
worker threads never mix warnings. -/
theorem warning_capture_emit_filter (capA capB : WarningCapture)
    (t : List String) (rs : List LogRecord) (r : LogRecord)
    (hne : capA.threadName ≠ capB.threadName)
    (hr : r.threadName = capA.threadName) :
    (∀ q : LogRecord, captureEmit capA t q =
        if strStartsWith q.name "docling." = true ∧ q.threadName = capA.threadName
        then t ++ ["[" ++ q.levelname ++ "] " ++ q.name ++ ": " ++ q.message]
        else t)
    ∧ captureEmitAll capA t rs
        = t ++ (rs.filter (fun q =>
            q.threadName == capA.threadName
              && strStartsWith q.name "docling.")).map formatCaptured
    ∧ captureEmit capB t r = t := by
  refine ⟨fun q => ?_, ?_, ?_⟩
  · by_cases h1 : q.threadName = capA.threadName <;>
      by_cases h2 : strStartsWith q.name "docling." = true <;>
        simp [captureEmit, captureAccepts, doclingNamespaces, formatCaptured, h1, h2]
  · have hp : captureAccepts capA = fun q : LogRecord =>
        q.threadName == capA.threadName && strStartsWith q.name "docling." := by
      funext q
      simp [captureAccepts, doclingNamespaces]
    rw [captureEmitAll_eq, hp]
  · have hb : (r.threadName == capB.threadName) = false := by
      rw [hr]
      exact beq_eq_false_iff_ne.mpr hne
    simp [captureEmit, captureAccepts, hb]

/-- Witness for C4: a docling warning emitted on the installing thread
is captured and formatted; the same record is rejected by a capture
installed on another thread. -/
theorem warning_capture_emit_filter_witness :
    captureEmitAll ⟨"a.pdf", "worker_0"⟩ []
        [⟨"docling.backend", "WARNING", "worker_0", "m1"⟩]
      = ["[WARNING] docling.backend: m1"]
    ∧ captureEmit ⟨"b.pdf", "worker_1"⟩ []
        ⟨"docling.backend", "WARNING", "worker_0", "m1"⟩ = [] := by
  have h := warning_capture_emit_filter ⟨"a.pdf", "worker_0"⟩ ⟨"b.pdf", "worker_1"⟩
    [] [⟨"docling.backend", "WARNING", "worker_0", "m1"⟩]
    ⟨"docling.backend", "WARNING", "worker_0", "m1"⟩ (by decide) rfl
  refine ⟨?_, h.2.2⟩
  rw [h.2.1]
  rfl

/-- C9: extract_context restores the root logger handler list on every
exit path: for a freshly created handler identity, the handler list
after the call equals the one before it. -/
theorem extract_context_handler_frame (job : Job) (tn : String) (u : Bool)
    (hs : List Nat) (hid : Nat) (hfresh : hid ∉ hs) :
    (extract_context job tn u hs hid).2 = hs := by
  show removeHandler (addHandler hs hid) hid = hs
  have h1 : addHandler hs hid = hs ++ [hid] := by simp [addHandler, hfresh]
  rw [h1]
  have h2 : hid ∈ hs ++ [hid] := by simp
  simp [removeHandler, h2, List.erase_append_right _ hfresh]

/-- Witness for C9, on a job whose conversion raises. -/
theorem extract_context_handler_frame_witness :
    (extract_context
        { name := "a.pdf", stem := "a", sizeMB := 0,
          convert := .error "boom", records := [] }
        "worker_0" false [] 0).2 = [] :=
  extract_context_handler_frame _ "worker_0" false [] 0 (by simp)

theorem extractImagesGo_eq (stem : String) (pics : List PictureItem) (i : Nat) :
    extractImagesGo stem i pics
      = (((pics.enumFrom i).filterMap (fun ip =>
            if picWritable ip.2 then some (imgFileName stem ip.1) else none)).length,
         (pics.enumFrom i).filterMap (fun ip =>
            if picWritable ip.2 then some (imgFileName stem ip.1) else none)) := by
  induction pics generalizing i with
  | nil => simp [extractImagesGo]
  | cons p ps ih =>
    simp only [extractImagesGo, List.enumFrom_cons, List.filterMap_cons]
    cases hp : p.image with
    | none => simp [picWritable, hp, ih]
    | some ref =>
      cases hr : ref.pil_image with
      | none => simp [picWritable, hp, hr, ih]
      | some img =>
        by_cases hs : img.saveOk <;> simp [picWritable, hp, hr, hs, ih]

/-- C5: the image extractor writes exactly the decodable, savable
pictures, under names built from the stem and the 3-digit zero-padded
position in the picture list (skipped entries still consume their
index), and returns the count of files written; with 3 pictures where
the middle one has no data, it returns 2. -/
theorem extract_images_names_and_count (stem : String) (pics : List PictureItem) :
    (extract_images stem (some pics)).2
      = pics.enum.filterMap (fun ip =>
          if picWritable ip.2 then
            some (stem ++ "_img_" ++ zeroPad3 ip.1 ++ ".png")
          else none)
    ∧ (extract_images stem (some pics)).1
        = (extract_images stem (some pics)).2.length
    ∧ (extract_images "doc"
        (some [⟨some ⟨some ⟨0, true⟩⟩⟩, ⟨none⟩, ⟨some ⟨some ⟨1, true⟩⟩⟩])).1 = 2 := by
  refine ⟨?_, ?_, by rfl⟩
  · cases pics with
    | nil => simp [extract_images]
    | cons p ps =>
      show (extractImagesGo stem 0 (p :: ps)).2 = _
      rw [extractImagesGo_eq]
      rfl
  · cases pics with
    | nil => rfl
    | cons p ps =>
      show (extractImagesGo stem 0 (p :: ps)).1
          = (extractImagesGo stem 0 (p :: ps)).2.length
      rw [extractImagesGo_eq]

/-- C6: the summary block written by write_report is computed exactly
from the recorded entries: total_documents is the entry count, the
three status counts count the entries with that status, and the two
totals are sums over all entries; in particular for entries with
images_extracted 2, 0, 1 of which one failed, total_images_extracted
is 3 and failed is 1. -/
theorem write_report_summary_counts (entries : List AuditEntry) :
    (computeSummary entries).total_documents = entries.length
    ∧ (computeSummary entries).successful
        = entries.countP (fun e => e.status == "success")
    ∧ (computeSummary entries).partialCount
        = entries.countP (fun e => e.status == "partial")
    ∧ (computeSummary entries).failed
        = entries.countP (fun e => e.status == "failed")
    ∧ (computeSummary entries).total_images_extracted
        = (entries.map (fun e => e.images_extracted)).sum
    ∧ (computeSummary entries).total_warnings
        = (entries.map (fun e => e.warnings.length)).sum
    ∧ (computeSummary
        [⟨"a.pdf", "success", 0, 3, 2, [], none⟩,
         ⟨"b.pdf", "failed", 0, 0, 0, [], some "x"⟩,
         ⟨"c.pdf", "partial", 0, 1, 1, ["w"], none⟩]).total_images_extracted = 3
    ∧ (computeSummary
        [⟨"a.pdf", "success", 0, 3, 2, [], none⟩,
         ⟨"b.pdf", "failed", 0, 0, 0, [], some "x"⟩,
         ⟨"c.pdf", "partial", 0, 1, 1, ["w"], none⟩]).failed = 1 := by
  refine ⟨rfl, ?_, ?_, ?_, rfl, rfl, by rfl, by rfl⟩ <;>
    simp [computeSummary, List.countP_eq_length_filter]

/-- C7: reloading the JSON report written by write_report yields the
same six summary counts as computing the summary directly from the
in-memory entries. -/
theorem audit_report_roundtrip (ts : String) (entries : List AuditEntry) :
    readSummary (write_report ts entries) = some (computeSummary entries) := by
  simp [readSummary, write_report, summaryToJson, jlookup, jGetNat]

end Draiver
